import Mathlib

/-!
# SIM-card order engine: shallow embedding

A shallow embedding of the order state and derivation engine of
`src/index.tsx`: the plan catalog, the plan-consistency effect, the pricing
calculator, the UPI payment-URI / QR-URL builder, the AI extraction merge,
the send-time gate and the outbound message formatter, together with
theorems checking the specification's claims about them.

Strings model JavaScript strings; a JS `undefined`/absent string field is
modelled as the empty string (both are falsy, and the source only ever
tests these fields for truthiness).
-/

namespace SimOrder

/-! ## Configuration constants (src/index.tsx lines 6-11) -/

def WHATSAPP_NUMBER : String := "919360626529"

def DELIVERY_CHARGE : Int := 50

def MERCHANT_UPI : String := "sakthi000505@okhdfcbank"

def MERCHANT_NAME : String := "SAKTHI"

/-! ## Catalog (the `PLANS` table, lines 20-35)

`PLANS[t]?.[n] || []` on arbitrary runtime strings: any key outside the
table yields the empty list. -/

def PLANS_lookup (t n : String) : List String :=
  if t = "NEW" then
    if n = "AIRTEL" then ["249", "349"]
    else if n = "JIO" then ["349"]
    else if n = "VI" then ["199", "299"]
    else []
  else if t = "MNP" then
    if n = "AIRTEL" then ["199", "349"]
    else if n = "JIO" then ["349"]
    else if n = "VI" then ["199", "299"]
    else []
  else if t = "REPLACEMENT" then
    if n = "AIRTEL" then ["200"]
    else if n = "VI" then ["200"]
    else []
  else []

/-! ## Form state (the `formData` record, lines 59-69) -/

@[ext]
structure FormData where
  name : String
  mobile : String
  type : String
  network : String
  plan : String
  address : String
  locationLink : String
  paymentMethod : String
  transactionId : String
deriving DecidableEq

/-- The initial state of `formData` (lines 59-69). -/
def initialFormData : FormData :=
  { name := "", mobile := "", type := "NEW", network := "AIRTEL", plan := "",
    address := "", locationLink := "", paymentMethod := "Cash on Delivery",
    transactionId := "" }

/-- `getAvailablePlans` (lines 86-88): `PLANS[formData.type]?.[formData.network] || []`. -/
def getAvailablePlans (fd : FormData) : List String :=
  PLANS_lookup fd.type fd.network

/-! ## Plan-consistency effect (the `useEffect` body, lines 77-84)

Runs whenever `formData.type` or `formData.network` changes. -/

def planEffect (fd : FormData) : FormData :=
  let availablePlans := getAvailablePlans fd
  if 0 < availablePlans.length ∧ fd.plan ∉ availablePlans then
    { fd with plan := availablePlans.headI }
  else if availablePlans.length = 0 then
    { fd with plan := "" }
  else fd

/-! ## JavaScript `parseInt` (used by `getTotalPrice`, line 92)

`parseInt(s)` with no radix argument: skip leading whitespace, optional
sign, a `0x`/`0X` prefix selecting radix 16 (otherwise radix 10), then the
longest prefix of radix digits; `none` models `NaN` (no digit consumed). -/

def isJsWhitespace (c : Char) : Bool :=
  c.toNat = 32 ∨ c.toNat = 9 ∨ c.toNat = 10 ∨ c.toNat = 11 ∨ c.toNat = 12 ∨ c.toNat = 13

def digitVal (radix : Nat) (c : Char) : Option Nat :=
  let v : Option Nat :=
    if 48 ≤ c.toNat ∧ c.toNat ≤ 57 then some (c.toNat - 48)
    else if 97 ≤ c.toNat ∧ c.toNat ≤ 122 then some (c.toNat - 97 + 10)
    else if 65 ≤ c.toNat ∧ c.toNat ≤ 90 then some (c.toNat - 65 + 10)
    else none
  match v with
  | some d => if d < radix then some d else none
  | none => none

def parseDigits (radix : Nat) : List Char → Nat → Bool → Option Nat
  | [], acc, seen => if seen then some acc else none
  | c :: rest, acc, seen =>
    match digitVal radix c with
    | some d => parseDigits radix rest (acc * radix + d) true
    | none => if seen then some acc else none

def stripSign : List Char → Int × List Char
  | [] => (1, [])
  | c :: rest =>
    if c = '-' then (-1, rest)
    else if c = '+' then (1, rest)
    else (1, c :: rest)

def stripHex : List Char → Nat × List Char
  | [] => (10, [])
  | [c] => (10, [c])
  | c1 :: c2 :: rest =>
    if c1 = '0' ∧ (c2 = 'x' ∨ c2 = 'X') then (16, rest)
    else (10, c1 :: c2 :: rest)

def parseIntJS (s : String) : Option Int :=
  let cs := s.data.dropWhile isJsWhitespace
  let sc := stripSign cs
  let rc := stripHex sc.2
  match parseDigits rc.1 rc.2 0 false with
  | some n => some (sc.1 * n)
  | none => none

/-- `getTotalPrice` (lines 91-94): `(parseInt(formData.plan) || 0) + DELIVERY_CHARGE`.
`NaN || 0` and `0 || 0` are both `0`; any other parse result is kept. -/
def getTotalPrice (fd : FormData) : Int :=
  let planPrice : Int :=
    match parseIntJS fd.plan with
    | none => 0
    | some v => if v = 0 then 0 else v
  planPrice + DELIVERY_CHARGE

/-! ## Number-to-string (JS template-literal interpolation of an integer) -/

def digitChar (n : Nat) : Char :=
  "0123456789ABCDEF".data.getD n '0'

def natDigitsAux : Nat → Nat → List Char
  | 0, _ => []
  | fuel + 1, n =>
    if n < 10 then [digitChar n]
    else natDigitsAux fuel (n / 10) ++ [digitChar (n % 10)]

def natToString (n : Nat) : String := ⟨natDigitsAux (n + 1) n⟩

def intToString (i : Int) : String :=
  if i < 0 then "-" ++ natToString i.natAbs else natToString i.natAbs

/-! ## `encodeURIComponent` (RFC 3986 unreserved set plus `!*'()~`),
with UTF-8 percent-escaping of every other character. -/

def isUnreservedURI (c : Char) : Bool :=
  (65 ≤ c.toNat ∧ c.toNat ≤ 90) ∨ (97 ≤ c.toNat ∧ c.toNat ≤ 122) ∨
  (48 ≤ c.toNat ∧ c.toNat ≤ 57) ∨
  c.toNat = 45 ∨ c.toNat = 95 ∨ c.toNat = 46 ∨ c.toNat = 33 ∨
  c.toNat = 126 ∨ c.toNat = 42 ∨ c.toNat = 39 ∨ c.toNat = 40 ∨ c.toNat = 41

def utf8Bytes (c : Char) : List Nat :=
  let n := c.toNat
  if n < 128 then [n]
  else if n < 2048 then [192 + n / 64, 128 + n % 64]
  else if n < 65536 then [224 + n / 4096, 128 + (n / 64) % 64, 128 + n % 64]
  else [240 + n / 262144, 128 + (n / 4096) % 64, 128 + (n / 64) % 64, 128 + n % 64]

def percentByte (b : Nat) : List Char :=
  ['%', digitChar (b / 16), digitChar (b % 16)]

def encodeChar (c : Char) : List Char :=
  if isUnreservedURI c then [c] else ((utf8Bytes c).map percentByte).flatten

def encodeURIComponent (s : String) : String :=
  ⟨(s.data.map encodeChar).flatten⟩

/-- Percent-decoding of a character sequence: a `%` followed by two hex
digits becomes the byte value (sufficient to invert `encodeURIComponent`
on ASCII strings, where every escape is a single byte). -/
def percentDecodeChars : List Char → List Char
  | [] => []
  | '%' :: h1 :: h2 :: rest =>
    match digitVal 16 h1, digitVal 16 h2 with
    | some a, some b => Char.ofNat (a * 16 + b) :: percentDecodeChars rest
    | _, _ => '%' :: percentDecodeChars (h1 :: h2 :: rest)
  | c :: rest => c :: percentDecodeChars rest
termination_by cs => cs.length
decreasing_by all_goals simp <;> omega

def percentDecode (s : String) : String := ⟨percentDecodeChars s.data⟩

/-! ## Payment URI and QR URL builder (`getQrCodeUrl`, lines 97-105) -/

/-- The template literal of line 102: only the merchant name goes through
`encodeURIComponent`; the payee address and the amount are interpolated raw. -/
def upiLink (amount : Int) : String :=
  "upi://pay?pa=" ++ MERCHANT_UPI ++ "&pn=" ++ encodeURIComponent MERCHANT_NAME ++
  "&am=" ++ intToString amount ++ "&cu=INR"

def getQrCodeUrl (fd : FormData) : String :=
  let amount := getTotalPrice fd
  if amount ≤ 0 then ""
  else "https://api.qrserver.com/v1/create-qr-code/?size=200x200&data=" ++
    encodeURIComponent (upiLink amount)

/-! ## AI extraction result and reconciliation (`handleAiAutoFill`, lines 108-144) -/

/-- The parsed JSON object of line 124. A field the extractor omitted is
modelled as `""` (`undefined` and `""` are both falsy under `||`). -/
structure Extraction where
  customerName : String
  mobileNumber : String
  requestType : String
  network : String
  planAmount : String
  address : String
  paymentMethod : String
  transactionId : String
deriving DecidableEq

def emptyExtraction : Extraction :=
  { customerName := "", mobileNumber := "", requestType := "", network := "",
    planAmount := "", address := "", paymentMethod := "", transactionId := "" }

/-- JS `a || b` on strings: the empty string is the only falsy string. -/
def jsOr (a b : String) : String := if a = "" then b else a

/-- The `setFormData` merge of lines 126-136: field-by-field `extracted.x || prev.x`.
`locationLink` is not part of the merge (kept via the `...prev` spread). -/
def mergeExtraction (prev : FormData) (ex : Extraction) : FormData :=
  { prev with
    name := jsOr ex.customerName prev.name,
    mobile := jsOr ex.mobileNumber prev.mobile,
    type := jsOr ex.requestType prev.type,
    network := jsOr ex.network prev.network,
    plan := jsOr ex.planAmount prev.plan,
    address := jsOr ex.address prev.address,
    paymentMethod := jsOr ex.paymentMethod prev.paymentMethod,
    transactionId := jsOr ex.transactionId prev.transactionId }

/-- The `useEffect` of lines 77-84 re-runs after a state update exactly when
one of its dependencies `[formData.type, formData.network]` changed. -/
def applyPlanEffect (old new : FormData) : FormData :=
  if new.type = old.type ∧ new.network = old.network then new else planEffect new

/-- A successful extraction merge followed by the dependency-gated plan effect. -/
def reconcile (prev : FormData) (ex : Extraction) : FormData :=
  applyPlanEffect prev (mergeExtraction prev ex)

/-- The three ways the `try`/`catch` of `handleAiAutoFill` can go:
a thrown error (network failure or `JSON.parse` throwing), a falsy
`response.text`, or a parsed extraction object. -/
inductive AiOutcome where
  | failure : AiOutcome
  | noText : AiOutcome
  | ok : Extraction → AiOutcome
deriving DecidableEq

/-- State transition of one `handleAiAutoFill` run, paired with whether the
failure alert of line 140 was shown. -/
def handleAiAutoFillStep (fd : FormData) (o : AiOutcome) : FormData × Bool :=
  match o with
  | .failure => (fd, true)
  | .noText => (fd, false)
  | .ok ex => (reconcile fd ex, false)

/-! ## Send gate and message formatter (`handleSend`, lines 169-199) -/

/-- The guard of lines 170-173: the send proceeds iff `name`, `mobile`,
`address` and `plan` are all truthy. Nothing else is checked. -/
def handleSendGate (fd : FormData) : Bool :=
  !(fd.name == "" || fd.mobile == "" || fd.address == "" || fd.plan == "")

/-- The message block built in lines 177-195. -/
def buildMsg (fd : FormData) : String :=
  let total := getTotalPrice fd
  "📩 *SIM ORDER*\n\n" ++
  "🧑 *Name:* " ++ fd.name ++ "\n" ++
  "📞 *Mobile:* " ++ fd.mobile ++ "\n\n" ++
  "📌 *Type:* " ++ fd.type ++ "\n" ++
  "📶 *Network:* " ++ fd.network ++ "\n" ++
  "💰 *Plan:* ₹" ++ fd.plan ++ "\n" ++
  "🚚 *Delivery:* ₹" ++ intToString DELIVERY_CHARGE ++ "\n" ++
  "💵 *Total:* ₹" ++ intToString total ++ "\n" ++
  "💳 *Payment:* " ++ fd.paymentMethod ++ "\n" ++
  (if fd.paymentMethod = "UPI" ∧ fd.transactionId ≠ "" then
    "🆔 *Txn ID:* " ++ fd.transactionId ++ "\n" else "") ++
  "\n🏠 *Address:* " ++ fd.address ++ "\n" ++
  (if fd.locationLink ≠ "" then
    "\n📍 *Location:* " ++ fd.locationLink ++ "\n" else "")

/-- The outbound transport deep link of line 197. -/
def waUrl (fd : FormData) : String :=
  "https://wa.me/" ++ WHATSAPP_NUMBER ++ "?text=" ++ encodeURIComponent (buildMsg fd)

/-! ## Helper lemmas -/

lemma headI_mem_of_ne_nil {l : List String} (h : l ≠ []) : l.headI ∈ l := by
  cases l with
  | nil => exact absurd rfl h
  | cons x xs => exact List.mem_cons_self x xs

lemma sAppend_assoc (a b c : String) : a ++ b ++ c = a ++ (b ++ c) := by
  apply String.ext
  simp [String.data_append]

lemma sEmpty_append (a : String) : "" ++ a = a := by
  apply String.ext
  simp [String.data_append]

lemma sAppend_empty (a : String) : a ++ "" = a := by
  apply String.ext
  simp [String.data_append]

lemma append_ne_empty_left (a b : String) (ha : a.data ≠ []) : a ++ b ≠ "" := by
  intro h
  have hd := congrArg String.data h
  rw [String.data_append] at hd
  simp only [List.append_eq_nil] at hd
  exact ha hd.1

lemma getAvailablePlans_plan_update (fd : FormData) (p : String) :
    getAvailablePlans { fd with plan := p } = getAvailablePlans fd := rfl

lemma planEffect_fields (fd : FormData) :
    (planEffect fd).name = fd.name ∧ (planEffect fd).mobile = fd.mobile ∧
    (planEffect fd).type = fd.type ∧ (planEffect fd).network = fd.network ∧
    (planEffect fd).address = fd.address ∧ (planEffect fd).locationLink = fd.locationLink ∧
    (planEffect fd).paymentMethod = fd.paymentMethod ∧
    (planEffect fd).transactionId = fd.transactionId := by
  simp only [planEffect]
  split_ifs <;> exact ⟨rfl, rfl, rfl, rfl, rfl, rfl, rfl, rfl⟩

lemma planEffect_plan (fd : FormData) :
    (planEffect fd).plan =
      if fd.plan ∈ getAvailablePlans fd then fd.plan else (getAvailablePlans fd).headI := by
  simp only [planEffect]
  by_cases hmem : fd.plan ∈ getAvailablePlans fd
  · have hne : getAvailablePlans fd ≠ [] := List.ne_nil_of_mem hmem
    rw [if_neg (fun h => h.2 hmem), if_neg (by simpa [List.length_eq_zero] using hne),
      if_pos hmem]
  · by_cases hnil : getAvailablePlans fd = []
    · rw [if_neg (by simp [hnil]), if_pos (by simp [hnil]), if_neg hmem, hnil]
      rfl
    · rw [if_pos ⟨List.length_pos.mpr hnil, hmem⟩, if_neg hmem]

lemma getAvailablePlans_planEffect (fd : FormData) :
    getAvailablePlans (planEffect fd) = getAvailablePlans fd := by
  unfold getAvailablePlans
  rw [(planEffect_fields fd).2.2.1, (planEffect_fields fd).2.2.2.1]

/-! ## Concrete drafts and extraction results used in closed statements -/

/-- A draft with every field of the send gate filled, `paymentMethod` UPI and
an empty transaction reference. -/
def upiNoRefDraft : FormData :=
  { name := "Asha", mobile := "9876543210", type := "NEW", network := "JIO",
    plan := "349", address := "12 Main St", locationLink := "",
    paymentMethod := "UPI", transactionId := "" }

/-- An extraction whose `requestType` is outside the closed vocabulary. -/
def fooExtraction : Extraction := { emptyExtraction with requestType := "FOO" }

/-- A draft whose type and network match `catalogBypassExtraction` and whose
plan is a catalog member. -/
def bypassDraft : FormData :=
  { initialFormData with
    name := "Bala"
    mobile := "9000000000"
    address := "1 A St"
    plan := "249" }

/-- An extraction repeating the draft's type and network, carrying a plan
amount outside `PLANS["NEW"]["AIRTEL"]`. -/
def catalogBypassExtraction : Extraction :=
  { emptyExtraction with requestType := "NEW", network := "AIRTEL", planAmount := "999" }

/-- A draft whose plan string parses to a negative number under JS `parseInt`. -/
def negativePlanDraft : FormData := { initialFormData with plan := "-5" }

/-! ## Claim theorems -/

/-- C1: the spec requires the send-time validator to reject a draft whose
four required fields are filled but whose payment method is UPI with an
empty transaction reference, reporting the violated field set. The code's
own form labels the field "Transaction ID / UTR (Required for UPI) *", yet
the `handleSend` guard checks only `name`, `mobile`, `address` and `plan`:
it accepts this draft and proceeds to send. -/
theorem c1_send_gate_accepts_upi_without_reference :
    handleSendGate upiNoRefDraft = true ∧
    upiNoRefDraft.paymentMethod = "UPI" ∧ upiNoRefDraft.transactionId = "" := by
  refine ⟨rfl, rfl, rfl⟩

/-- C5: there is a draft and an extraction whose `requestType` and `network`
repeat the draft's (so the plan-consistency effect is not re-triggered) and
whose `planAmount` is non-empty and outside the catalog list, such that
reconciliation leaves the extracted plan amount as the selected plan — the
merge accepts `extracted.planAmount` without validating it against the
catalog. -/
theorem c5_extracted_plan_bypasses_catalog :
    ∃ (prev : FormData) (ex : Extraction),
      ex.requestType = prev.type ∧ ex.network = prev.network ∧
      ex.planAmount ≠ "" ∧ ex.planAmount ∉ PLANS_lookup prev.type prev.network ∧
      (reconcile prev ex).plan = ex.planAmount ∧
      (reconcile prev ex).plan ∉
        PLANS_lookup (reconcile prev ex).type (reconcile prev ex).network := by
  exact ⟨bypassDraft, catalogBypassExtraction,
    by decide, by decide, by decide, by decide, by decide, by decide⟩

/-- C6: the reconciler is a field-by-field fill-if-present merge: a
non-empty extracted value overwrites the corresponding draft field, an
empty (absent) one preserves the draft value, `locationLink` is never part
of the merge, and merging an all-empty extraction changes nothing — never a
wholesale replace. -/
theorem c6_merge_fill_if_present (prev : FormData) (ex : Extraction) :
    (mergeExtraction prev ex).name =
      (if ex.customerName = "" then prev.name else ex.customerName) ∧
    (mergeExtraction prev ex).mobile =
      (if ex.mobileNumber = "" then prev.mobile else ex.mobileNumber) ∧
    (mergeExtraction prev ex).type =
      (if ex.requestType = "" then prev.type else ex.requestType) ∧
    (mergeExtraction prev ex).network =
      (if ex.network = "" then prev.network else ex.network) ∧
    (mergeExtraction prev ex).plan =
      (if ex.planAmount = "" then prev.plan else ex.planAmount) ∧
    (mergeExtraction prev ex).address =
      (if ex.address = "" then prev.address else ex.address) ∧
    (mergeExtraction prev ex).paymentMethod =
      (if ex.paymentMethod = "" then prev.paymentMethod else ex.paymentMethod) ∧
    (mergeExtraction prev ex).transactionId =
      (if ex.transactionId = "" then prev.transactionId else ex.transactionId) ∧
    (mergeExtraction prev ex).locationLink = prev.locationLink ∧
    mergeExtraction prev emptyExtraction = prev := by
  refine ⟨rfl, rfl, rfl, rfl, rfl, rfl, rfl, rfl, rfl, ?_⟩
  cases prev
  simp [mergeExtraction, emptyExtraction, jsOr]

/-- C2 counterexample: the claim says an out-of-vocabulary extracted
`requestType` is ignored; in the code `extracted.requestType || prev.type`
performs no vocabulary check, so `"FOO"` overwrites the draft's `"NEW"`. -/
theorem c2_foo_overwrites_request_type :
    (reconcile initialFormData fooExtraction).type = "FOO" ∧
    initialFormData.type = "NEW" := by
  exact ⟨by decide, rfl⟩

/-- C2 amended: the reconciler performs no vocabulary check on the
enum-like fields: any non-empty extracted `requestType`, `network` or
`paymentMethod` overwrites the draft field even when outside the closed
vocabulary, and only an empty/absent value preserves the draft value; no
error is raised either way. -/
theorem c2_amended_enum_values_unchecked (fd : FormData) (ex : Extraction) :
    (reconcile fd ex).type = (if ex.requestType = "" then fd.type else ex.requestType) ∧
    (reconcile fd ex).network = (if ex.network = "" then fd.network else ex.network) ∧
    (reconcile fd ex).paymentMethod =
      (if ex.paymentMethod = "" then fd.paymentMethod else ex.paymentMethod) := by
  unfold reconcile applyPlanEffect
  set m := mergeExtraction fd ex with hm
  by_cases h : m.type = fd.type ∧ m.network = fd.network
  · rw [if_pos h]
    exact ⟨rfl, rfl, rfl⟩
  · rw [if_neg h]
    refine ⟨?_, ?_, ?_⟩
    · rw [(planEffect_fields m).2.2.1]; rfl
    · rw [(planEffect_fields m).2.2.2.1]; rfl
    · rw [(planEffect_fields m).2.2.2.2.2.2.1]; rfl

/-- C9 counterexample: the claim says every failed extraction (network
error or unparseable/empty response) is surfaced to the user; when the call
succeeds but `response.text` is falsy, the code's `if (text)` guard skips
silently — the draft is untouched but no error is surfaced. -/
theorem c9_empty_response_not_surfaced :
    handleAiAutoFillStep initialFormData AiOutcome.noText = (initialFormData, false) := rfl

/-- C9 amended: on a thrown extraction error (network failure or
`JSON.parse` error) the draft is left exactly as it was and the failure is
surfaced through the alert; on an empty extraction response the draft is
likewise untouched but nothing is surfaced. -/
theorem c9_amended_failure_leaves_draft (fd : FormData) :
    handleAiAutoFillStep fd AiOutcome.failure = (fd, true) ∧
    handleAiAutoFillStep fd AiOutcome.noText = (fd, false) :=
  ⟨rfl, rfl⟩

/-- C7 counterexample: the claim says the total is a non-negative parsed
plan plus the delivery charge, or exactly the delivery charge for an
unparseable plan; JS `parseInt` also accepts signed numerals, so the plan
string "-5" yields 45, strictly below the delivery charge. -/
theorem c7_negative_plan_total_below_delivery :
    getTotalPrice negativePlanDraft = 45 ∧
    getTotalPrice negativePlanDraft < DELIVERY_CHARGE := by
  exact ⟨by decide, by decide⟩

/-- C4: the plan-consistency effect keeps a plan that is already in the
current catalog list, otherwise replaces it with the first listed plan when
the list is non-empty and with the empty string when it is empty; it
touches no other field, and running it a second time on its own output
changes nothing. -/
theorem c4_plan_resolver (fd : FormData) :
    (planEffect fd).plan =
      (if fd.plan ∈ getAvailablePlans fd then fd.plan
       else (getAvailablePlans fd).headI) ∧
    (planEffect fd).type = fd.type ∧ (planEffect fd).network = fd.network ∧
    planEffect (planEffect fd) = planEffect fd := by
  refine ⟨planEffect_plan fd, (planEffect_fields fd).2.2.1,
    (planEffect_fields fd).2.2.2.1, ?_⟩
  apply FormData.ext
  · exact (planEffect_fields (planEffect fd)).1
  · exact (planEffect_fields (planEffect fd)).2.1
  · exact (planEffect_fields (planEffect fd)).2.2.1
  · exact (planEffect_fields (planEffect fd)).2.2.2.1
  · rw [planEffect_plan (planEffect fd), getAvailablePlans_planEffect,
      planEffect_plan fd]
    by_cases hmem : fd.plan ∈ getAvailablePlans fd
    · rw [if_pos hmem, if_pos hmem]
    · rw [if_neg hmem]
      rcases eq_or_ne (getAvailablePlans fd) [] with hnil | hnil
      · rw [hnil]
        simp
      · rw [if_pos (headI_mem_of_ne_nil hnil)]
  · exact (planEffect_fields (planEffect fd)).2.2.2.2.1
  · exact (planEffect_fields (planEffect fd)).2.2.2.2.2.1
  · exact (planEffect_fields (planEffect fd)).2.2.2.2.2.2.1
  · exact (planEffect_fields (planEffect fd)).2.2.2.2.2.2.2

lemma getTotalPrice_only_plan (fd : FormData) :
    getTotalPrice fd = getTotalPrice { initialFormData with plan := fd.plan } := rfl

/-- C10: whenever the selected plan satisfies the catalog invariant (a
member of the current catalog list, or empty), the total is at least the
fixed delivery charge of 50 and hence strictly positive, so the
`amount <= 0` early-return of the QR builder is unreachable and a QR URL is
produced even with no plan selected. -/
theorem c10_qr_branch_unreachable (fd : FormData)
    (h : fd.plan ∈ getAvailablePlans fd ∨ fd.plan = "") :
    DELIVERY_CHARGE ≤ getTotalPrice fd ∧ getQrCodeUrl fd ≠ "" := by
  have htot : DELIVERY_CHARGE ≤ getTotalPrice fd := by
    rcases h with hmem | hempty
    · have hcases : fd.plan = "249" ∨ fd.plan = "349" ∨ fd.plan = "199" ∨
          fd.plan = "299" ∨ fd.plan = "200" := by
        unfold getAvailablePlans PLANS_lookup at hmem
        split_ifs at hmem <;> simp at hmem <;> tauto
      rcases hcases with h | h | h | h | h <;> rw [getTotalPrice_only_plan, h] <;> decide
    · rw [getTotalPrice_only_plan, hempty]
      decide
  refine ⟨htot, ?_⟩
  have hpos : ¬ getTotalPrice fd ≤ 0 := by
    have h50 : (50 : Int) ≤ getTotalPrice fd := htot
    omega
  simp only [getQrCodeUrl]
  rw [if_neg hpos]
  exact append_ne_empty_left _ _ (by decide)

/-- A catalog-consistent concrete draft: type NEW, network JIO, plan 349. -/
def c10Draft : FormData :=
  { initialFormData with type := "NEW", network := "JIO", plan := "349" }

/-- Witness for C10 at a concrete catalog-consistent draft. -/
theorem c10_qr_branch_unreachable_witness :
    DELIVERY_CHARGE ≤ getTotalPrice c10Draft ∧ getQrCodeUrl c10Draft ≠ "" :=
  c10_qr_branch_unreachable c10Draft (Or.inl (by decide))

/-- Modelled from the spec's formatter contract: the message as a joined
list of segments in the stable field order, where the optional
transaction-reference and location sections contribute list elements only
when present, so an omitted section leaves nothing behind. -/
def headerSegments (fd : FormData) (total : Int) : List String :=
  ["📩 *SIM ORDER*\n\n",
   "🧑 *Name:* " ++ fd.name ++ "\n",
   "📞 *Mobile:* " ++ fd.mobile ++ "\n\n",
   "📌 *Type:* " ++ fd.type ++ "\n",
   "📶 *Network:* " ++ fd.network ++ "\n",
   "💰 *Plan:* ₹" ++ fd.plan ++ "\n",
   "🚚 *Delivery:* ₹" ++ intToString DELIVERY_CHARGE ++ "\n",
   "💵 *Total:* ₹" ++ intToString total ++ "\n",
   "💳 *Payment:* " ++ fd.paymentMethod ++ "\n"]

def txnSegments (fd : FormData) : List String :=
  if fd.paymentMethod = "UPI" ∧ fd.transactionId ≠ "" then
    ["🆔 *Txn ID:* " ++ fd.transactionId ++ "\n"]
  else []

def locationSegments (fd : FormData) : List String :=
  if fd.locationLink ≠ "" then ["\n📍 *Location:* " ++ fd.locationLink ++ "\n"]
  else []

def formatSpec (fd : FormData) : String :=
  String.join (headerSegments fd (getTotalPrice fd) ++ txnSegments fd ++
    ["\n🏠 *Address:* " ++ fd.address ++ "\n"] ++ locationSegments fd)

/-- C8: the message block equals the spec-ordered join of segments: the
fixed field order name, mobile, type, network, plan, delivery, total,
payment, then the transaction-reference line exactly when the payment
method is UPI with a non-empty reference, then the address, then the
location line exactly when a location link is present — omitted optional
sections contribute nothing. -/
theorem c8_message_structure (fd : FormData) : buildMsg fd = formatSpec fd := by
  simp only [buildMsg, formatSpec, headerSegments, txnSegments, locationSegments]
  by_cases h1 : fd.paymentMethod = "UPI" ∧ fd.transactionId ≠ ""
  · by_cases h2 : fd.locationLink ≠ ""
    · simp only [if_pos h1, if_pos h2, String.join, List.cons_append, List.nil_append,
        List.foldl_cons, List.foldl_nil, sAppend_assoc, sEmpty_append, sAppend_empty]
    · simp only [if_pos h1, if_neg h2, String.join, List.cons_append, List.nil_append,
        List.foldl_cons, List.foldl_nil, sAppend_assoc, sEmpty_append, sAppend_empty]
  · by_cases h2 : fd.locationLink ≠ ""
    · simp only [if_neg h1, if_pos h2, String.join, List.cons_append, List.nil_append,
        List.foldl_cons, List.foldl_nil, sAppend_assoc, sEmpty_append, sAppend_empty]
    · simp only [if_neg h1, if_neg h2, String.join, List.cons_append, List.nil_append,
        List.foldl_cons, List.foldl_nil, sAppend_assoc, sEmpty_append, sAppend_empty]

/-! ## Decimal parsing facts (for the amended C7) -/

/-- The numeric value of a decimal digit string, written independently of
`parseIntJS`. -/
def decimalVal (cs : List Char) : Nat :=
  cs.foldl (fun a c => a * 10 + (c.toNat - 48)) 0

lemma digitVal_ten_of_digit {c : Char} (h1 : 48 ≤ c.toNat) (h2 : c.toNat ≤ 57) :
    digitVal 10 c = some (c.toNat - 48) := by
  have hlt : c.toNat - 48 < 10 := by omega
  simp [digitVal, h1, h2, hlt]

lemma parseDigits_ten_go (cs : List Char) (acc : Nat)
    (h : ∀ c ∈ cs, 48 ≤ c.toNat ∧ c.toNat ≤ 57) :
    parseDigits 10 cs acc true =
      some (cs.foldl (fun a c => a * 10 + (c.toNat - 48)) acc) := by
  induction cs generalizing acc with
  | nil => simp [parseDigits]
  | cons c rest ih =>
    have hc := h c (List.mem_cons_self c rest)
    simp only [parseDigits, digitVal_ten_of_digit hc.1 hc.2, List.foldl_cons]
    exact ih _ (fun x hx => h x (List.mem_cons_of_mem c hx))

lemma parseIntJS_digits (cs : List Char) (hne : cs ≠ [])
    (h : ∀ c ∈ cs, 48 ≤ c.toNat ∧ c.toNat ≤ 57) :
    parseIntJS ⟨cs⟩ = some (decimalVal cs) := by
  cases cs with
  | nil => exact absurd rfl hne
  | cons c rest =>
    have hc := h c (List.mem_cons_self c rest)
    have hws : isJsWhitespace c = false := by
      simp [isJsWhitespace]
      omega
    have hdrop : List.dropWhile isJsWhitespace (c :: rest) = c :: rest := by
      simp [List.dropWhile_cons, hws]
    have hsign : stripSign (c :: rest) = (1, c :: rest) := by
      have hm : ¬ c = '-' := by intro e; subst e; exact absurd hc.1 (by decide)
      have hp : ¬ c = '+' := by intro e; subst e; exact absurd hc.1 (by decide)
      simp [stripSign, hm, hp]
    have hhex : stripHex (c :: rest) = (10, c :: rest) := by
      cases rest with
      | nil => rfl
      | cons c2 rest2 =>
        have hc2 := h c2 (by simp)
        have hno : ¬ (c = '0' ∧ (c2 = 'x' ∨ c2 = 'X')) := by
          rintro ⟨-, e | e⟩ <;> (subst e; exact absurd hc2.2 (by decide))
        simp [stripHex, hno]
    have hpd : parseDigits 10 (c :: rest) 0 false = some (decimalVal (c :: rest)) := by
      simp only [parseDigits, digitVal_ten_of_digit hc.1 hc.2]
      rw [parseDigits_ten_go rest _ (fun x hx => h x (List.mem_cons_of_mem c hx))]
      simp [decimalVal]
    simp only [parseIntJS, hdrop, hsign, hhex, hpd]
    simp

/-- C7 amended: the total is the JS-`parseInt` value of the plan string
plus the delivery charge (the sign and numeric prefix are honored, so the
contribution can be negative); in particular a plan string made of decimal
digits contributes its decimal value, and an empty or unparseable plan
(parse result NaN) contributes 0, leaving exactly the delivery charge. -/
theorem c7_amended_total (fd : FormData) :
    (fd.plan.data ≠ [] → (∀ c ∈ fd.plan.data, 48 ≤ c.toNat ∧ c.toNat ≤ 57) →
      getTotalPrice fd = (decimalVal fd.plan.data : Int) + DELIVERY_CHARGE) ∧
    (parseIntJS fd.plan = none → getTotalPrice fd = DELIVERY_CHARGE) := by
  constructor
  · intro hne hdig
    have hp : parseIntJS fd.plan = some (decimalVal fd.plan.data) :=
      parseIntJS_digits fd.plan.data hne hdig
    simp only [getTotalPrice, hp]
    by_cases h0 : (decimalVal fd.plan.data : Int) = 0
    · simp [h0]
    · simp [h0]
  · intro hnone
    simp only [getTotalPrice, hnone]
    simp

/-- A draft whose plan is the digit string "349". -/
def digitPlanDraft : FormData := { initialFormData with plan := "349" }

/-- Witness for the amended C7: a digit plan contributes its decimal value,
and the initial draft's empty plan leaves exactly the delivery charge. -/
theorem c7_amended_total_witness :
    getTotalPrice digitPlanDraft =
      (decimalVal digitPlanDraft.plan.data : Int) + DELIVERY_CHARGE ∧
    getTotalPrice initialFormData = DELIVERY_CHARGE := by
  constructor
  · exact (c7_amended_total digitPlanDraft).1 (by decide) (by decide)
  · exact (c7_amended_total initialFormData).2 (by decide)

/-! ## Percent-encoding round trip on ASCII strings (for C3) -/

lemma digitChar_toNat_lt (n : Nat) : (digitChar n).toNat < 128 := by
  rcases Nat.lt_or_ge n 16 with h | h
  · interval_cases n <;> decide
  · unfold digitChar
    rw [List.getD_eq_default _ _ (by simpa using h)]
    decide

lemma digitVal_sixteen_digitChar {n : Nat} (h : n < 16) :
    digitVal 16 (digitChar n) = some n := by
  interval_cases n <;> decide

lemma unreserved_ne_percent {c : Char} (h : isUnreservedURI c = true) : c ≠ '%' := by
  intro e
  subst e
  exact absurd h (by decide)

lemma percentDecodeChars_cons_ne {c : Char} (l : List Char) (h : c ≠ '%') :
    percentDecodeChars (c :: l) = c :: percentDecodeChars l := by
  rcases l with _ | ⟨h1, _ | ⟨h2, rest⟩⟩ <;> simp [percentDecodeChars, h]

lemma percentDecodeChars_escape (h1 h2 : Char) (a b : Nat) (l : List Char)
    (e1 : digitVal 16 h1 = some a) (e2 : digitVal 16 h2 = some b) :
    percentDecodeChars ('%' :: h1 :: h2 :: l) =
      Char.ofNat (a * 16 + b) :: percentDecodeChars l := by
  simp [percentDecodeChars, e1, e2]

lemma utf8Bytes_ascii {c : Char} (h : c.toNat < 128) : utf8Bytes c = [c.toNat] := by
  simp [utf8Bytes, h]

lemma encode_decode_char {c : Char} (h : c.toNat < 128) (l : List Char) :
    percentDecodeChars (encodeChar c ++ l) = c :: percentDecodeChars l := by
  by_cases hu : isUnreservedURI c
  · rw [encodeChar, if_pos hu, List.singleton_append,
      percentDecodeChars_cons_ne l (unreserved_ne_percent hu)]
  · rw [encodeChar, if_neg hu, utf8Bytes_ascii h]
    simp only [List.map_cons, List.map_nil, List.flatten_cons, List.flatten_nil,
      List.append_nil, percentByte, List.cons_append, List.nil_append]
    rw [percentDecodeChars_escape _ _ _ _ l
      (digitVal_sixteen_digitChar (by omega)) (digitVal_sixteen_digitChar (by omega))]
    have hdm : c.toNat / 16 * 16 + c.toNat % 16 = c.toNat := by omega
    rw [hdm, Char.ofNat_toNat]

lemma percentDecode_encodeChars (cs : List Char) (h : ∀ c ∈ cs, c.toNat < 128) :
    percentDecodeChars ((cs.map encodeChar).flatten) = cs := by
  induction cs with
  | nil => simp [percentDecodeChars]
  | cons c rest ih =>
    simp only [List.map_cons, List.flatten_cons]
    rw [encode_decode_char (h c (List.mem_cons_self c rest))]
    rw [ih (fun x hx => h x (List.mem_cons_of_mem c hx))]

lemma percentDecode_encode_ascii (s : String) (h : ∀ c ∈ s.data, c.toNat < 128) :
    percentDecode (encodeURIComponent s) = s := by
  apply String.ext
  exact percentDecode_encodeChars s.data h

lemma natDigitsAux_ascii (fuel : Nat) :
    ∀ (n : Nat), ∀ c ∈ natDigitsAux fuel n, c.toNat < 128 := by
  induction fuel with
  | zero => intro n c hc; simp [natDigitsAux] at hc
  | succ fuel ih =>
    intro n c hc
    simp only [natDigitsAux] at hc
    split at hc
    · simp at hc
      subst hc
      exact digitChar_toNat_lt _
    · rcases List.mem_append.mp hc with hc | hc
      · exact ih _ c hc
      · simp at hc
        subst hc
        exact digitChar_toNat_lt _

lemma intToString_ascii (i : Int) : ∀ c ∈ (intToString i).data, c.toNat < 128 := by
  intro c hc
  unfold intToString natToString at hc
  split at hc
  · rw [String.data_append] at hc
    rcases List.mem_append.mp hc with hc | hc
    · simp at hc
      subst hc
      decide
    · exact natDigitsAux_ascii _ _ c hc
  · exact natDigitsAux_ascii _ _ c hc

lemma string_append_ascii {a b : String}
    (ha : ∀ c ∈ a.data, c.toNat < 128) (hb : ∀ c ∈ b.data, c.toNat < 128) :
    ∀ c ∈ (a ++ b).data, c.toNat < 128 := by
  intro c hc
  rw [String.data_append] at hc
  rcases List.mem_append.mp hc with h | h
  · exact ha c h
  · exact hb c h

lemma upiLink_ascii (amount : Int) : ∀ c ∈ (upiLink amount).data, c.toNat < 128 := by
  unfold upiLink
  exact string_append_ascii (string_append_ascii (string_append_ascii
    (string_append_ascii (string_append_ascii (string_append_ascii
      (by decide) (by decide)) (by decide)) (by decide)) (by decide))
    (intToString_ascii amount)) (by decide)

/-! ## C3 theorems -/

/-- The four-parameter payment URI exactly as the claim (spec §4.3)
describes it: every parameter value percent-encoded individually. Written
from the claim's words, for comparison with the source's `upiLink`. -/
def upiLinkClaim (amount : Int) : String :=
  "upi://pay?pa=" ++ encodeURIComponent MERCHANT_UPI ++ "&pn=" ++
    encodeURIComponent MERCHANT_NAME ++ "&am=" ++
    encodeURIComponent (intToString amount) ++ "&cu=" ++ encodeURIComponent "INR"

/-- C3 counterexample: the claim says all four parameter values (payee
address included) are percent-encoded individually; the source interpolates
the payee address raw, so at amount 399 the produced URI keeps the bare `@`
of the payee address and differs from the fully-encoded form (which would
contain `%40`). -/
theorem c3_payee_address_not_encoded :
    upiLink 399 ≠ upiLinkClaim 399 ∧
    upiLink 399 = "upi://pay?pa=sakthi000505@okhdfcbank&pn=SAKTHI&am=399&cu=INR" := by
  exact ⟨by decide, by decide⟩

/-- C3 amended: for every positive amount the payment URI has exactly the
four parameters pa, pn, am, cu in that fixed order, with only the payee
name percent-encoded (the payee address and amount are interpolated raw);
the QR request URL wraps the fully percent-encoded payment URI as the
`data` parameter of the fixed rendering endpoint with size 200x200, and the
encoded `data` value decodes back to the payment URI exactly. -/
theorem c3_amended_uri_structure (amount : Int) (h : 0 < amount) :
    upiLink amount =
      "upi://pay?pa=" ++ MERCHANT_UPI ++ "&pn=" ++ encodeURIComponent MERCHANT_NAME ++
        "&am=" ++ intToString amount ++ "&cu=INR" ∧
    (∀ fd : FormData, getTotalPrice fd = amount →
      getQrCodeUrl fd =
        "https://api.qrserver.com/v1/create-qr-code/?size=200x200&data=" ++
          encodeURIComponent (upiLink amount)) ∧
    percentDecode (encodeURIComponent (upiLink amount)) = upiLink amount := by
  refine ⟨rfl, ?_, percentDecode_encode_ascii _ (upiLink_ascii amount)⟩
  intro fd hfd
  simp only [getQrCodeUrl, hfd]
  rw [if_neg (by omega)]

/-- Witness for the amended C3 at amount 399, reached by the draft whose
plan is "349". -/
theorem c3_amended_uri_structure_witness :
    getQrCodeUrl digitPlanDraft =
      "https://api.qrserver.com/v1/create-qr-code/?size=200x200&data=" ++
        encodeURIComponent (upiLink 399) ∧
    percentDecode (encodeURIComponent (upiLink 399)) = upiLink 399 := by
  have h := c3_amended_uri_structure 399 (by decide)
  exact ⟨h.2.1 digitPlanDraft (by decide), h.2.2⟩

end SimOrder
